import Mathlib

/-!
Verification development for the Terabox extraction core.

The Python sources are embedded shallowly: pure logic becomes Lean
functions over `List Char` / `String`, network responses and clock/random
inputs become explicit oracle parameters, and the stateful session manager
becomes explicit state passing.  Each definition's doc comment names the
source function it embeds.
-/

/-! ### Basic character-list utilities (models of the Python `str` methods used) -/

/-- Characters stripped by Python `str.strip()` (ASCII whitespace). -/
def isPySp (c : Char) : Bool :=
  c = ' ' || c = '\t' || c = '\n' || c = '\r' || c = '\x0b' || c = '\x0c'

/-- Model of Python `str.split(sep)` for a one-character separator. -/
def splitOnChar (sep : Char) : List Char → List (List Char)
  | [] => [[]]
  | c :: cs =>
    let r := splitOnChar sep cs
    if c = sep then [] :: r
    else
      match r with
      | [] => [[c]]
      | h :: t => (c :: h) :: t

/-- Model of Python `str.split(sep, 1)`: the part before the first `sep`,
and `some` of the part after it when `sep` occurs. -/
def splitOnce (sep : Char) : List Char → List Char × Option (List Char)
  | [] => ([], none)
  | c :: cs =>
    if c = sep then ([], some cs)
    else
      let r := splitOnce sep cs
      (c :: r.1, r.2)

/-- Leading-whitespace trim. -/
def trimL (l : List Char) : List Char := l.dropWhile isPySp

/-- Model of Python `str.strip()`. -/
def pyStrip (l : List Char) : List Char := ((trimL l).reverse |> trimL).reverse

/-- Model of Python `str.strip("/")` (strip a specific character from both ends). -/
def stripChar (ch : Char) (l : List Char) : List Char :=
  ((l.dropWhile (· = ch)).reverse.dropWhile (· = ch)).reverse

/-- Model of Python `sep.join` for a one-character separator. -/
def intercalChar (sep : Char) : List (List Char) → List Char
  | [] => []
  | [x] => x
  | x :: xs => x ++ sep :: intercalChar sep xs

/-- Model of Python `pat in s` (substring containment) for a non-empty pattern. -/
def containsChars (l : List Char) (pat : List Char) : Bool :=
  match l with
  | [] => pat.isEmpty
  | c :: cs => pat.isPrefixOf (c :: cs) || containsChars cs pat

/-- Model of Python `c in s` (single-character containment). -/
def containsChar (ch : Char) (l : List Char) : Bool := l.any (· = ch)

/-- Model of Python `s.endswith(suffix)`. -/
def endsWithChars (l suffix : List Char) : Bool :=
  l.drop (l.length - suffix.length) == suffix

/-- Model of Python `str.replace("www.", "")`: delete all non-overlapping
occurrences of `www.`, scanning left to right (the only `replace` call the
resolver makes). -/
def dropWww : List Char → List Char
  | 'w' :: 'w' :: 'w' :: '.' :: rest => dropWww rest
  | c :: cs => c :: dropWww cs
  | [] => []

/-- Model of Python `str.lower()` (ASCII case folding suffices here). -/
def lowerChars (l : List Char) : List Char := l.map Char.toLower

/-- String wrappers. -/
def strLower (s : String) : String := ⟨lowerChars s.data⟩

def strContains (s pat : String) : Bool := containsChars s.data pat.data

def strEndsWith (s suffix : String) : Bool := endsWithChars s.data suffix.data

/-! ### A model of `urllib.parse.urlsplit` / `urlparse`

Only the pieces the resolver consumes (`netloc`, `path`, `query`) are
modelled, following CPython's splitting order: scheme, `//netloc`,
`#fragment`, `?query`, and `urlparse`'s `;params` split on the last path
segment. -/

structure UrlParts where
  netloc : List Char
  path : List Char
  query : List Char
deriving DecidableEq, Repr

/-- Valid scheme characters per CPython (`letters + digits + "+-."`). -/
def isSchemeChar (c : Char) : Bool :=
  c.isAlpha || c.isDigit || c = '+' || c = '-' || c = '.'

/-- Take the netloc: everything up to the first of `/`, `?`, `#`. -/
def takeNetloc : List Char → List Char × List Char
  | [] => ([], [])
  | c :: cs =>
    if c = '/' || c = '?' || c = '#' then ([], c :: cs)
    else
      let r := takeNetloc cs
      (c :: r.1, r.2)

/-- Model of CPython `_splitparams`: drop `;params` from the last path segment. -/
def splitParamsChars (p : List Char) : List Char :=
  let seg := (p.reverse.takeWhile (· ≠ '/')).reverse
  let pre := p.take (p.length - seg.length)
  match splitOnce ';' seg with
  | (a, some _) => pre ++ a
  | (_, none) => p

/-- Model of `urllib.parse.urlparse` restricted to the fields used. -/
def urlparseChars (l : List Char) : UrlParts :=
  -- scheme
  let rest :=
    match splitOnce ':' l with
    | (before, some after) =>
      if before ≠ [] && before.all isSchemeChar then after else l
    | (_, none) => l
  -- netloc
  let (netloc, rest2) :=
    match rest with
    | '/' :: '/' :: tl => takeNetloc tl
    | _ => ([], rest)
  -- fragment
  let rest3 := (splitOnce '#' rest2).1
  -- query
  let (rawPath, q) := splitOnce '?' rest3
  { netloc := netloc, path := splitParamsChars rawPath, query := q.getD [] }

/-! ### Percent decoding (`urllib.parse.parse_qs` value decoding)

Models `unquote_plus` for ASCII percent-escapes; multi-byte UTF-8 escapes
(which the library decodes bytewise and re-assembles) do not occur in any
input considered here. -/

def hexVal (c : Char) : Option Nat :=
  if '0' ≤ c && c ≤ '9' then some (c.toNat - 48)
  else if 'a' ≤ c && c ≤ 'f' then some (c.toNat - 87)
  else if 'A' ≤ c && c ≤ 'F' then some (c.toNat - 55)
  else none

def pctDecode : List Char → List Char
  | [] => []
  | [c] => [c]
  | [c, d] => [c, d]
  | c :: d :: e :: rest =>
    if c = '%' then
      match hexVal d, hexVal e with
      | some hi, some lo => Char.ofNat (hi * 16 + lo) :: pctDecode rest
      | _, _ => c :: pctDecode (d :: e :: rest)
    else c :: pctDecode (d :: e :: rest)

/-- Model of `unquote_plus`-style decoding as used by `parse_qsl`
(`'+' → ' '` then percent-decoding). -/
def pyUnquotePlus (l : List Char) : List Char :=
  pctDecode (l.map fun c => if c = '+' then ' ' else c)

/-- Model of `parse_qs(query)[key][0]`: the first pair of the query string
whose decoded name equals `key` and whose raw value is non-empty
(`keep_blank_values=False` drops blank values; pairs without `=` are
skipped). -/
def parse_qs_get (query : List Char) (key : List Char) : Option (List Char) :=
  go (splitOnChar '&' query)
where
  go : List (List Char) → Option (List Char)
    | [] => none
    | nv :: rest =>
      if nv = [] then go rest
      else
        match splitOnce '=' nv with
        | (_, none) => go rest
        | (n, some v) =>
          if v = [] then go rest
          else if pyUnquotePlus n = key then some (pyUnquotePlus v)
          else go rest

/-! ### Domain Registry (`src/domains/resolver.py`) -/

/-- `DomainResolver.KNOWN_DOMAINS`. -/
def KNOWN_DOMAINS : List String :=
  [ "terabox.com", "www.terabox.com", "teraboxapp.com", "www.teraboxapp.com",
    "1024tera.com", "www.1024tera.com", "4funbox.co", "www.4funbox.co",
    "4funbox.com", "www.4funbox.com",
    "mirrobox.com", "www.mirrobox.com", "nephobox.com", "www.nephobox.com",
    "momerybox.com", "www.momerybox.com", "tibibox.com", "www.tibibox.com",
    "freeterabox.com", "www.freeterabox.com",
    "dubox.com", "www.dubox.com", "teraboxlink.com", "www.teraboxlink.com",
    "terafileshare.com", "www.terafileshare.com",
    "terabox.co", "www.terabox.co", "terabox.fun", "www.terabox.fun",
    "terabox.app", "www.terabox.app",
    "1024terabox.com", "www.1024terabox.com", "gibibox.com", "www.gibibox.com",
    "box.terabox.app" ]

/-- The substring heuristics of `DomainResolver.is_terabox_url`. -/
def terabox_patterns : List String :=
  ["terabox", "tera", "box", "dubox", "funbox", "nepho", "mirro", "momer"]

/-- `urlparse(url.lower()).netloc.replace("www.", "")` — the `domain`
local variable of `is_terabox_url`. -/
def domainOf (url : String) : List Char :=
  dropWww (urlparseChars (lowerChars url.data)).netloc

/-- `DomainResolver.is_terabox_url`. -/
def is_terabox_url (url : String) : Bool :=
  let domain := domainOf url
  KNOWN_DOMAINS.any (fun known =>
    let k := dropWww known.data
    k == domain || endsWithChars domain k)
  || terabox_patterns.any (fun pat => containsChars domain pat.data)

/-- The character class of the `surl` capture groups: `[a-zA-Z0-9_-]`. -/
def isIdChar (c : Char) : Bool := c.isAlpha || c.isDigit || c = '_' || c = '-'

/-- Try to match `lit` followed by a non-empty maximal run of id characters
at the head of `s` (one regex alternative of `SHARE_PATTERNS`). -/
def matchAt (lit : List Char) (s : List Char) : Option (List Char) :=
  if lit.isPrefixOf s then
    let cap := (s.drop lit.length).takeWhile isIdChar
    if cap.isEmpty then none else some cap
  else none

/-- `re.search` for a pattern of the shape `lit([a-zA-Z0-9_-]+)`: leftmost
position where the whole pattern matches wins. -/
def searchFrom (lit : List Char) : List Char → Option (List Char)
  | [] => none
  | c :: cs =>
    match matchAt lit (c :: cs) with
    | some cap => some cap
    | none => searchFrom lit cs

/-- `re.search` for the pattern `[?&]surl=([a-zA-Z0-9_-]+)`. -/
def searchQSurl : List Char → Option (List Char)
  | [] => none
  | c :: cs =>
    if c = '?' || c = '&' then
      match matchAt "surl=".data cs with
      | some cap => some cap
      | none => searchQSurl cs
    else searchQSurl cs

/-- `DomainResolver.extract_surl`: the six regexes in order, then the
`parse_qs` fallback, then the `/s/<x>` path split.  Python returns either a
string (possibly empty, from the path split) or `None`; both map to
`Option String` here, with `some ""` for the empty-capture path case. -/
def extract_surl (url : String) : Option String :=
  let l := url.data
  match searchFrom "/s/".data l with
  | some cap => some ⟨cap⟩
  | none =>
  match searchFrom "/sharing/link?surl=".data l with
  | some cap => some ⟨cap⟩
  | none =>
  match searchQSurl l with
  | some cap => some ⟨cap⟩
  | none =>
  match searchFrom "/wap/s/".data l with
  | some cap => some ⟨cap⟩
  | none =>
  match searchFrom "/web/share/link?surl=".data l with
  | some cap => some ⟨cap⟩
  | none =>
  match searchFrom "/share/link?surl=".data l with
  | some cap => some ⟨cap⟩
  | none =>
  let parts := urlparseChars l
  match parse_qs_get parts.query "surl".data with
  | some v => some ⟨v⟩
  | none =>
  match splitOnChar '/' (stripChar '/' parts.path) with
  | p0 :: p1 :: _ => if p0 = "s".data then some ⟨p1⟩ else none
  | _ => none

/-- `DomainResolver.CANONICAL_DOMAIN` based canonical prefix. -/
def canonicalPrefix : String := "https://www.terabox.com/s/"

/-- `DomainResolver.normalize_url` (`if surl:` treats the empty capture as
a failure). -/
def normalize_url (url : String) : Option String :=
  match extract_surl url with
  | some s => if s ≠ "" then some (canonicalPrefix ++ s) else none
  | none => none

/-- `DomainResolver.parse_url`: `(surl, normalized_url, api_base)` when the
URL is recognized and a truthy surl is extracted. -/
def parse_url (url : String) : Option (String × Option String × String) :=
  if is_terabox_url url then
    match extract_surl url with
    | some s =>
      if s ≠ "" then some (s, normalize_url url, "https://www.terabox.com")
      else none
    | none => none
  else none

example : extract_surl "https://1024tera.com/s/1AbC_dE-fG" = some "1AbC_dE-fG" := by decide
example : normalize_url "https://1024tera.com/s/1AbC_dE-fG" =
    some "https://www.terabox.com/s/1AbC_dE-fG" := by decide
example : is_terabox_url "https://1024tera.com/s/1AbC_dE-fG" = true := by decide
example : is_terabox_url "https://example.com/s/xxx" = false := by decide
example : is_terabox_url "https://dropbox.com/s/abc" = true := by decide
example : extract_surl "https://terabox.com/x?surl=/abc" = some "/abc" := by decide
example : normalize_url "https://www.terabox.com/s//abc" = none := by decide

/-! ### Cookie header serialization (`src/utils/http.py`) -/

/-- Python `dict` assignment on an insertion-ordered association list:
update in place when the key exists, else append. -/
def dictInsert (d : List (String × String)) (k v : String) : List (String × String) :=
  if d.any (fun p => p.1 == k) then
    d.map (fun p => if p.1 == k then (p.1, v) else p)
  else d ++ [(k, v)]

/-- The loop body of `parse_cookies`: strip the item, keep it when it
contains `=`, split once at the first `=`, strip key and value, insert. -/
def cookieStep (d : List (String × String)) (item0 : List Char) :
    List (String × String) :=
  let item := pyStrip item0
  match splitOnce '=' item with
  | (k, some v) => dictInsert d ⟨pyStrip k⟩ ⟨pyStrip v⟩
  | (_, none) => d

/-- `parse_cookies`: split on `;`, then run `cookieStep` over the items
(empty input short-circuits to the empty dict). -/
def parse_cookies (s : String) : List (String × String) :=
  if s.data = [] then []
  else (splitOnChar ';' s.data).foldl cookieStep []

/-- The characters of `"; ".join(f"{k}={v}" for ...)`. -/
def buildCookieChars : List (String × String) → List Char
  | [] => []
  | [(k, v)] => k.data ++ '=' :: v.data
  | (k, v) :: rest => k.data ++ '=' :: v.data ++ ';' :: ' ' :: buildCookieChars rest

/-- `build_cookie_string`. -/
def build_cookie_string (d : List (String × String)) : String :=
  ⟨buildCookieChars d⟩

example : parse_cookies "lang=en;  ndus = abc " = [("lang", "en"), ("ndus", "abc")] := by decide
example : build_cookie_string (parse_cookies "lang=en;  ndus = abc ") = "lang=en; ndus=abc" := by decide

/-! ### Transport retry (`tenacity` decorators on `HTTPClient.request` and
`TeraboxAPIClient._request`) -/

/-- `tenacity.wait_exponential(multiplier, min, max)`: the wait before the
retry that follows attempt number `attempt` (1-based) is
`multiplier * 2^(attempt-1)` clamped into `[min, max]`. -/
def waitExponential (multiplier mn mx attempt : Nat) : Nat :=
  max mn (min (multiplier * 2 ^ (attempt - 1)) mx)

/-- The wait schedule of `TeraboxAPIClient._request`
(`wait_exponential(multiplier=1, min=2, max=10)`). -/
def apiRequestWait (attempt : Nat) : Nat := waitExponential 1 2 10 attempt

/-- The wait schedule of `HTTPClient.request`
(`wait_exponential(multiplier=1, min=1, max=10)`). -/
def httpRequestWait (attempt : Nat) : Nat := waitExponential 1 1 10 attempt

/-- Outcome of one underlying transport attempt: an HTTP response with a
status code (never raised by the transport itself), or a raised exception
(`aiohttp.ClientError`, `asyncio.TimeoutError`, or an application-level
`TeraboxAPIError`). -/
inductive AttemptOutcome where
  | response (status : Nat)
  | excClient
  | excTimeout
  | excApi
deriving DecidableEq, Repr

/-- `retry_if_exception_type((aiohttp.ClientError, asyncio.TimeoutError))`:
only raised transport exceptions trigger a retry. -/
def retryable : AttemptOutcome → Bool
  | .excClient => true
  | .excTimeout => true
  | _ => false

/-- The retry loop under `stop_after_attempt(3)`: attempt `k` observes
`f k`; a retryable outcome before the third attempt is retried, anything
else is returned (responses are returned whatever their status).  Yields
(attempts used, final outcome). -/
def runRetry (f : Nat → AttemptOutcome) : Nat × AttemptOutcome :=
  if ¬ retryable (f 1) then (1, f 1)
  else if ¬ retryable (f 2) then (2, f 2)
  else (3, f 3)

/-! ### Session manager (`src/extractor/token_manager.py`)

`SessionData` keeps the fields the claims are about (`timestamp` is the
creation time, `expires`, `logid`); clock readings and the freshly
generated logid are oracle parameters. -/

structure SessionData where
  timestamp : Int
  expires : Int
  logid : String
deriving DecidableEq, Repr

/-- `SessionData.is_expired`: `time.time() > self.expires if self.expires
else True`. -/
def is_expired (now : Int) (s : SessionData) : Bool :=
  if s.expires ≠ 0 then decide (now > s.expires) else true

/-- `TokenManager.initialize_session`: under the lock, an existing
non-expired session is returned unchanged; otherwise a fresh
`SessionData` is built with `timestamp = now`,
`expires = now + refresh_interval` and a new logid, installed as current. -/
def init_session (now : Int) (freshLogid : String) (interval : Int)
    (cur : Option SessionData) : SessionData :=
  match cur with
  | some s => if ¬ is_expired now s then s else ⟨now, now + interval, freshLogid⟩
  | none => ⟨now, now + interval, freshLogid⟩

/-- `TokenManager.refresh_if_needed`: bootstrap when there is no session or
it is expired, else return the current session. -/
def refresh_if_needed (now : Int) (freshLogid : String) (interval : Int)
    (cur : Option SessionData) : SessionData :=
  match cur with
  | some s =>
    if is_expired now s then init_session now freshLogid interval (some s) else s
  | none => init_session now freshLogid interval none

/-! ### API client error policy (`src/extractor/api_client.py`) -/

/-- `TeraboxAPIClient.BASE_DOMAINS`. -/
def BASE_DOMAINS : List String :=
  ["www.terabox.com", "terabox.com", "www.teraboxapp.com", "www.1024tera.com"]

/-- `TeraboxAPIClient._rotate_domain`. -/
def rotate_domain (idx : Nat) : Nat := (idx + 1) % BASE_DOMAINS.length

/-- Client state: the shared session (owned by the token manager) and the
mirror cursor. -/
structure ClientState where
  session : Option SessionData
  domainIdx : Nat
deriving DecidableEq, Repr

/-- What `_request` raises. -/
inductive RaisedExc where
  | api (errno : Int)
  | transport
deriving DecidableEq, Repr

/-- What the network returns to one `_request` call: a decoded body
summarized by its `errno` (0 meaning success), or a raised
`aiohttp.ClientError`. -/
inductive ReqOutcome where
  | body (errno : Int)
  | clientError
deriving DecidableEq, Repr

/-- `TeraboxAPIClient._request`, projected onto its session/domain state
effects and raise behavior.  `_endpoint` is the endpoint argument of the
source function; the error policy never consults it.  `now1` is the clock
at `_ensure_session` time, `now2` at error-handling time; `fresh1`/`fresh2`
are the logids a bootstrap at those moments would generate.
Per the source: `errno ∈ {-6, -9, 2}` calls `initialize_session` and
raises; `errno == 112` rotates the mirror and raises; other non-zero
errnos raise; a raised `ClientError` rotates the mirror and re-raises. -/
def requestStep (_endpoint : String) (now1 now2 : Int) (fresh1 fresh2 : String)
    (interval : Int) (cs : ClientState) (out : ReqOutcome) :
    ClientState × Except RaisedExc Unit :=
  let s1 := refresh_if_needed now1 fresh1 interval cs.session
  match out with
  | .clientError =>
    ({ session := some s1, domainIdx := rotate_domain cs.domainIdx }, .error .transport)
  | .body errno =>
    if errno = 0 then ({ session := some s1, domainIdx := cs.domainIdx }, .ok ())
    else if errno = -6 ∨ errno = -9 ∨ errno = 2 then
      ({ session := some (init_session now2 fresh2 interval (some s1)),
         domainIdx := cs.domainIdx }, .error (.api errno))
    else if errno = 112 then
      ({ session := some s1, domainIdx := rotate_domain cs.domainIdx },
       .error (.api 112))
    else ({ session := some s1, domainIdx := cs.domainIdx }, .error (.api errno))

example :
    requestStep "/api/shorturlinfo" 1000 1000 "f1" "f2" 3600
      ⟨some ⟨1000, 4600, "logidA"⟩, 0⟩ (.body (-6)) =
    (⟨some ⟨1000, 4600, "logidA"⟩, 0⟩, .error (.api (-6))) := rfl


/-! ### MD5 (`hashlib.md5`, used by `TokenManager.generate_sign`)

A complete executable MD5 over byte lists (RFC 1321), with 32-bit words as
`Nat` reduced mod `2^32`. -/

/-- UTF-8 encoding of one character (model of Python `str.encode()`). -/
def utf8Bytes (c : Char) : List Nat :=
  let n := c.toNat
  if n < 0x80 then [n]
  else if n < 0x800 then [0xC0 + n / 64, 0x80 + n % 64]
  else if n < 0x10000 then
    [0xE0 + n / 4096, 0x80 + (n / 64) % 64, 0x80 + n % 64]
  else
    [0xF0 + n / 262144, 0x80 + (n / 4096) % 64, 0x80 + (n / 64) % 64, 0x80 + n % 64]

/-- The UTF-8 bytes of a string. -/
def strBytes (s : String) : List Nat := (s.data.map utf8Bytes).flatten

def md5Mask : Nat := 4294967295

/-- 32-bit left rotation. -/
def rotl32 (x s : Nat) : Nat :=
  (x * 2 ^ s) % 4294967296 + x / 2 ^ (32 - s)

/-- The 64 sine-derived round constants of MD5. -/
def md5K : List Nat :=
  [ 0xd76aa478, 0xe8c7b756, 0x242070db, 0xc1bdceee,
    0xf57c0faf, 0x4787c62a, 0xa8304613, 0xfd469501,
    0x698098d8, 0x8b44f7af, 0xffff5bb1, 0x895cd7be,
    0x6b901122, 0xfd987193, 0xa679438e, 0x49b40821,
    0xf61e2562, 0xc040b340, 0x265e5a51, 0xe9b6c7aa,
    0xd62f105d, 0x02441453, 0xd8a1e681, 0xe7d3fbc8,
    0x21e1cde6, 0xc33707d6, 0xf4d50d87, 0x455a14ed,
    0xa9e3e905, 0xfcefa3f8, 0x676f02d9, 0x8d2a4c8a,
    0xfffa3942, 0x8771f681, 0x6d9d6122, 0xfde5380c,
    0xa4beea44, 0x4bdecfa9, 0xf6bb4b60, 0xbebfbc70,
    0x289b7ec6, 0xeaa127fa, 0xd4ef3085, 0x04881d05,
    0xd9d4d039, 0xe6db99e5, 0x1fa27cf8, 0xc4ac5665,
    0xf4292244, 0x432aff97, 0xab9423a7, 0xfc93a039,
    0x655b59c3, 0x8f0ccc92, 0xffeff47d, 0x85845dd1,
    0x6fa87e4f, 0xfe2ce6e0, 0xa3014314, 0x4e0811a1,
    0xf7537e82, 0xbd3af235, 0x2ad7d2bb, 0xeb86d391 ]

/-- The per-round left-rotation amounts of MD5. -/
def md5S : List Nat :=
  [ 7, 12, 17, 22, 7, 12, 17, 22, 7, 12, 17, 22, 7, 12, 17, 22,
    5, 9, 14, 20, 5, 9, 14, 20, 5, 9, 14, 20, 5, 9, 14, 20,
    4, 11, 16, 23, 4, 11, 16, 23, 4, 11, 16, 23, 4, 11, 16, 23,
    6, 10, 15, 21, 6, 10, 15, 21, 6, 10, 15, 21, 6, 10, 15, 21 ]

/-- MD5 padding: `0x80`, zeros to 56 mod 64, then the 64-bit
little-endian bit length. -/
def md5Pad (msg : List Nat) : List Nat :=
  let len := msg.length
  let padLen := (120 - (len + 1) % 64) % 64
  let bitLen := (8 * len) % 18446744073709551616
  msg ++ 128 :: List.replicate padLen 0 ++
    (List.range 8).map (fun i => bitLen / 256 ^ i % 256)

/-- Split into 64-byte blocks (`fuel` bounds the recursion; it is always
called with fuel exceeding the block count). -/
def chunks64 : Nat → List Nat → List (List Nat)
  | 0, _ => []
  | _, [] => []
  | fuel + 1, l => l.take 64 :: chunks64 fuel (l.drop 64)

/-- The 16 little-endian 32-bit words of one 64-byte block. -/
def blockWords (b : List Nat) : List Nat :=
  (List.range 16).map fun j =>
    b.getD (4 * j) 0 + 256 * b.getD (4 * j + 1) 0 +
    65536 * b.getD (4 * j + 2) 0 + 16777216 * b.getD (4 * j + 3) 0

/-- One MD5 round `i` (0-based) updating `(a, b, c, d)` with message words `m`. -/
def md5Round (m : List Nat) (st : Nat × Nat × Nat × Nat) (i : Nat) :
    Nat × Nat × Nat × Nat :=
  let (a, b, c, d) := st
  let f :=
    if i < 16 then Nat.lor (Nat.land b c) (Nat.land (Nat.xor md5Mask b) d)
    else if i < 32 then Nat.lor (Nat.land d b) (Nat.land (Nat.xor md5Mask d) c)
    else if i < 48 then Nat.xor (Nat.xor b c) d
    else Nat.xor c (Nat.lor b (Nat.xor md5Mask d))
  let g :=
    if i < 16 then i
    else if i < 32 then (5 * i + 1) % 16
    else if i < 48 then (3 * i + 5) % 16
    else (7 * i) % 16
  let x := (f + a + md5K.getD i 0 + m.getD g 0) % 4294967296
  (d, (b + rotl32 x (md5S.getD i 0)) % 4294967296, b, c)

/-- Process one block into the running state. -/
def md5Block (st : Nat × Nat × Nat × Nat) (b : List Nat) : Nat × Nat × Nat × Nat :=
  let m := blockWords b
  let (a, b0, c, d) := st
  let (a2, b2, c2, d2) := (List.range 64).foldl (md5Round m) (a, b0, c, d)
  ((a + a2) % 4294967296, (b0 + b2) % 4294967296,
   (c + c2) % 4294967296, (d + d2) % 4294967296)

/-- Little-endian bytes of a 32-bit word. -/
def le4 (n : Nat) : List Nat :=
  [n % 256, n / 256 % 256, n / 65536 % 256, n / 16777216 % 256]

/-- The 16 digest bytes of a byte message. -/
def md5Bytes (msg : List Nat) : List Nat :=
  let padded := md5Pad msg
  let (a, b, c, d) :=
    (chunks64 (padded.length + 1) padded).foldl md5Block
      (0x67452301, 0xefcdab89, 0x98badcfe, 0x10325476)
  le4 a ++ le4 b ++ le4 c ++ le4 d

/-- The sixteen lowercase hex digits. -/
def hexDigits : List Char := "0123456789abcdef".data

def hexChar (n : Nat) : Char := hexDigits.getD n '0'

/-- Two lowercase hex characters of a byte. -/
def byteHex (b : Nat) : List Char := [hexChar (b / 16), hexChar (b % 16)]

/-- `hashlib.md5(s.encode()).hexdigest()`: the lowercase hexadecimal MD5
digest of the UTF-8 bytes of `s`. -/
def md5Hex (s : String) : String :=
  ⟨((md5Bytes (strBytes s)).map byteHex).flatten⟩

/-- `TokenManager.generate_sign`: `md5(f"{share_id}_{timestamp}")` as
lowercase hex. -/
def generate_sign (timestamp : Int) (share_id : String) : String :=
  md5Hex (share_id ++ "_" ++ toString timestamp)

example : md5Hex "" = "d41d8cd98f00b204e9800998ecf8427e" := by decide
example : md5Hex "abc" = "900150983cd24fb0d6963f7d28e17f72" := by decide

/-! ### Extraction pipeline (`src/extractor/terabox.py`)

Network responses are oracle parameters.  A JSON object consulted only
through `dict.get` of string-valued keys is modelled as an insertion-ordered
association list `Entry`. -/

/-- A JSON object restricted to the string-valued keys the pipeline reads. -/
abbrev Entry := List (String × String)

/-- `dict.get(k)` on an `Entry`. -/
def jget (d : Entry) (k : String) : Option String :=
  (d.find? (fun p => p.1 == k)).map (fun p => p.2)

/-- One element of the `file_list` with the attributes the pipeline reads
(`type_fld` is the `"type"` key). -/
structure FileEntry where
  server_filename : Option String := none
  filename : Option String := none
  category : Option Int := none
  mime_type : Option String := none
  type_fld : Option String := none
  dlink : Option String := none
deriving DecidableEq, Repr

/-- The extension set of `_find_video_file`. -/
def video_extensions : List String :=
  [".mp4", ".mkv", ".avi", ".mov", ".wmv", ".flv", ".webm", ".m4v", ".ts"]

/-- Pass 1 of `_find_video_file`: the lowercased
`server_filename`/`filename` ends with a video extension. -/
def passExt (f : FileEntry) : Bool :=
  let name := strLower (f.server_filename.getD (f.filename.getD ""))
  video_extensions.any (fun ext => strEndsWith name ext)

/-- Pass 2: `file.get("category", 0) == 1`. -/
def passCategory (f : FileEntry) : Bool := f.category.getD 0 == 1

/-- Pass 3: `"video" in file.get("mime_type", file.get("type", "")).lower()`. -/
def passMime (f : FileEntry) : Bool :=
  strContains (strLower (f.mime_type.getD (f.type_fld.getD ""))) "video"

/-- One `for file in file_list: if p(file): return file` loop. -/
def findFirstPass (p : FileEntry → Bool) : List FileEntry → Option FileEntry
  | [] => none
  | f :: rest => if p f then some f else findFirstPass p rest

/-- `TeraboxExtractor._find_video_file`: three passes, then the first
entry, `None` on the empty list. -/
def find_video_file (l : List FileEntry) : Option FileEntry :=
  match findFirstPass passExt l with
  | some f => some f
  | none =>
  match findFirstPass passCategory l with
  | some f => some f
  | none =>
  match findFirstPass passMime l with
  | some f => some f
  | none => l.head?

/-- Pass 3 as the claim words it: only `mime_type` is consulted. -/
def passMimeClaim (f : FileEntry) : Bool :=
  strContains (f.mime_type.getD "") "video"

/-- The selection procedure exactly as claim C4 states it (pass 3 reads
`mime_type` only). -/
def find_video_file_claim (l : List FileEntry) : Option FileEntry :=
  ((l.find? passExt).orElse fun _ =>
    (l.find? passCategory).orElse fun _ =>
      (l.find? passMimeClaim).orElse fun _ => l.head?)

/-- The selection procedure as claim C4 reads after amendment: pass 3 falls
back to the `type` key when `mime_type` is absent. -/
def selectionSpec (l : List FileEntry) : Option FileEntry :=
  ((l.find? passExt).orElse fun _ =>
    (l.find? passCategory).orElse fun _ =>
      (l.find? passMime).orElse fun _ => l.head?)

/-- The extraction result restricted to the URL fields the ladder writes
(`VideoInfo` in the source also carries display metadata). -/
structure VideoInfo where
  stream_url : String := ""
  download_url : String := ""
  dlink : String := ""
deriving DecidableEq, Repr

/-- Outcome of the HEAD probe in `_process_dlink`: a 200 response with its
final redirected URL, a non-200 response, or a raised exception. -/
inductive HeadOutcome where
  | ok200 (finalUrl : String)
  | httpError (status : Nat)
  | exn
deriving DecidableEq, Repr

/-- The query-terminated dlink: `dlink + "&"` when it already has a query
string, else `dlink + "?"`. -/
def dlinkWithSep (dlink : String) : String :=
  if containsChar '?' dlink.data then dlink ++ "&" else dlink ++ "?"

/-- `TeraboxExtractor._process_dlink`: `None` for a falsy dlink; else
append the query terminator, HEAD it, return the final URL on 200 and the
(query-terminated) dlink on any other status or exception. -/
def process_dlink (dlink : String) (h : HeadOutcome) : Option String :=
  if dlink = "" then none
  else
    match h with
    | .ok200 u => some u
    | _ => some (dlinkWithSep dlink)

/-- The HEAD request `_process_dlink` issues (url, timeout seconds). -/
structure HeadRequest where
  url : String
  timeoutSecs : Nat
deriving DecidableEq, Repr

/-- The request descriptor of `_process_dlink`'s probe:
`session.head(dlink, ..., timeout=10)` after query termination. -/
def process_dlink_request (dlink : String) : HeadRequest :=
  { url := dlinkWithSep dlink, timeoutSecs := 10 }

/-- The `urls` field of a `/share/streaming` response: absent, a JSON
list of objects, or a JSON object. -/
inductive UrlsVal where
  | absent
  | ulist (l : List Entry)
  | udict (d : Entry)
deriving DecidableEq, Repr

/-- A `/share/streaming` response body: the directly scanned keys and the
`urls` field. -/
structure StreamingResp where
  fields : Entry := []
  urls : UrlsVal := .absent
deriving DecidableEq, Repr

/-- First key of `keys` whose value in `d` is truthy (present and
non-empty) — the `if response.get(key): return response[key]` scan. -/
def firstTruthyKey (d : Entry) : List String → Option String
  | [] => none
  | k :: ks =>
    match jget d k with
    | some v => if v ≠ "" then some v else firstTruthyKey d ks
    | none => firstTruthyKey d ks

/-- The response scan of one `/share/streaming` attempt: `some r` when the
loop body returns (`r` is the returned value, possibly `None`), `none`
when it falls through to the next streaming type. -/
def scanStreaming (r : StreamingResp) : Option (Option String) :=
  match firstTruthyKey r.fields ["lurl", "dlink", "url", "path", "mlink"] with
  | some v => some (some v)
  | none =>
    match r.urls with
    | .ulist [] => none
    | .ulist (e :: _) => some ((jget e "url").orElse fun _ => jget e "dlink")
    | .udict [] => none
    | .udict d => some ((jget d "url").orElse fun _ => jget d "dlink")
    | .absent => none

/-- `TeraboxExtractor._fetch_streaming_url`: one oracle outcome per
streaming type, in order; a raised `TeraboxAPIError` (any errno, `2`
silently) moves on to the next type, as does a response that yields
nothing. -/
def fetch_streaming_url : List (Except Int StreamingResp) → Option String
  | [] => none
  | .error _ :: rest => fetch_streaming_url rest
  | .ok r :: rest =>
    match scanStreaming r with
    | some v => v
    | none => fetch_streaming_url rest

/-- The `list` field of a `/share/download` response. -/
inductive DlListVal where
  | absent
  | lst (l : List Entry)
  | dct (d : Entry)
deriving DecidableEq, Repr

/-- A `/share/download` response body. -/
structure DownloadResp where
  list : DlListVal := .absent
  dlink : Option String := none
deriving DecidableEq, Repr

/-- The response scan of `_fetch_download_url`: a truthy `list` yields
`item.get("dlink", item.get("url"))` (returned as-is), else a truthy
top-level `dlink`; an API error yields nothing. -/
def fetch_download_url (out : Except Int DownloadResp) : Option String :=
  match out with
  | .error _ => none
  | .ok r =>
    let checkDlink :=
      match r.dlink with
      | some v => if v ≠ "" then some v else none
      | none => none
    match r.list with
    | .lst (e :: _) => (jget e "dlink").orElse fun _ => jget e "url"
    | .lst [] => checkDlink
    | .dct [] => checkDlink
    | .dct d => (jget d "dlink").orElse fun _ => jget d "url"
    | .absent => checkDlink

/-- The sign/timestamp selection of `_fetch_download_url`:
`timestamp = share.get("timestamp", now)`; the share's sign is used when
truthy, else `generate_sign(timestamp, shareid)`. -/
def downloadSign (shareSign : Option String) (shareTs : Option Int) (now : Int)
    (shareid : String) : String × Int :=
  let ts := shareTs.getD now
  let s0 := shareSign.getD ""
  (if s0 = "" then generate_sign ts shareid else s0, ts)

/-- An `/api/filemetas` response body (`info` absent or a list of entries). -/
structure FmResp where
  info : Option (List Entry) := none
deriving DecidableEq, Repr

/-- The `/share/videoPlay` scan of `_fetch_alt_stream_url`. -/
def altVideoPlay (vp : Except Int Entry) : Option String :=
  match vp with
  | .error _ => none
  | .ok d => firstTruthyKey d ["video", "url", "stream", "hd_url", "sd_url"]

/-- `TeraboxExtractor._fetch_alt_stream_url`: when the filemetas response
carries a truthy `info` list, `info[0].get("dlink")` is returned at once —
`videoPlay` is consulted only when filemetas raised or yielded no truthy
`info`. -/
def fetch_alt_stream_url (fm : Except Int FmResp) (vp : Except Int Entry) :
    Option String :=
  match fm with
  | .ok r =>
    match r.info with
    | some (e :: _) => jget e "dlink"
    | _ => altVideoPlay vp
  | .error _ => altVideoPlay vp

/-- Truthiness guard applied by `_get_stream_url` to each helper's result. -/
def truthyOpt : Option String → Option String
  | some s => if s = "" then none else some s
  | none => none

/-- `TeraboxExtractor._get_stream_url`, the four-method ladder over the
chosen file, with one oracle per network interaction. -/
def get_stream_url (f : FileEntry) (head : HeadOutcome)
    (souts : List (Except Int StreamingResp)) (dl : Except Int DownloadResp)
    (fm : Except Int FmResp) (vp : Except Int Entry) : Except String VideoInfo :=
  let step2 := fun (vi : VideoInfo) =>
    match truthyOpt (fetch_streaming_url souts) with
    | some u => Except.ok { vi with stream_url := u }
    | none =>
      match truthyOpt (fetch_download_url dl) with
      | some u => Except.ok { vi with download_url := u, stream_url := u }
      | none =>
        match truthyOpt (fetch_alt_stream_url fm vp) with
        | some u => Except.ok { vi with stream_url := u }
        | none => Except.error "Could not obtain streaming URL"
  match f.dlink with
  | some d =>
    if d ≠ "" then
      let vi : VideoInfo := { dlink := d }
      match process_dlink d head with
      | some u =>
        if u ≠ "" then Except.ok { vi with stream_url := u }
        else step2 { vi with stream_url := u }
      | none => step2 vi
    else step2 ({} : VideoInfo)
  | none => step2 ({} : VideoInfo)

/-- The yield of ladder rung 1 (pre-baked dlink), as the ladder sees it. -/
def rung1Yield (f : FileEntry) (head : HeadOutcome) : Option String :=
  match f.dlink with
  | some d => if d ≠ "" then truthyOpt (process_dlink d head) else none
  | none => none

/-- The ladder as claim C3 words it: the first non-empty URL among the
rungs, in order. -/
def ladderSpec (f : FileEntry) (head : HeadOutcome)
    (souts : List (Except Int StreamingResp)) (dl : Except Int DownloadResp)
    (fm : Except Int FmResp) (vp : Except Int Entry) : Option String :=
  ((rung1Yield f head).orElse fun _ =>
    (truthyOpt (fetch_streaming_url souts)).orElse fun _ =>
      (truthyOpt (fetch_download_url dl)).orElse fun _ =>
        truthyOpt (fetch_alt_stream_url fm vp))

/-! ### Helper lemmas -/

theorem findFirstPass_eq_find? (p : FileEntry → Bool) (l : List FileEntry) :
    findFirstPass p l = l.find? p := by
  induction l with
  | nil => rfl
  | cons f rest ih => by_cases h : p f <;> simp [findFirstPass, List.find?, h, ih]

theorem truthyOpt_ne_empty (x : Option String) (u : String)
    (h : truthyOpt x = some u) : u ≠ "" := by
  rcases x with _ | s
  · simp [truthyOpt] at h
  · by_cases hs : s = "" <;> simp [truthyOpt, hs] at h
    subst h; exact hs

/-! ### Claim theorems -/

/-- Claim C1 (code bug evidence): an `errno = -6` observed while the
current session is unexpired does not re-bootstrap — `initialize_session`
returns the existing state — so the subsequent `refresh_if_needed`
(`getOrRefresh`) yields the same `createdAt` (not strictly greater) and
the same logid. -/
theorem c1_session_error_keeps_unexpired_session :
    (requestStep "/api/shorturlinfo" 1000 1000 "freshB" "freshC" 3600
        ⟨some ⟨1000, 4600, "logidA"⟩, 0⟩ (.body (-6))).1.session
      = some ⟨1000, 4600, "logidA"⟩
    ∧ refresh_if_needed 1001 "freshD" 3600 (some ⟨1000, 4600, "logidA"⟩)
      = ⟨1000, 4600, "logidA"⟩
    ∧ ¬ (1000 < (refresh_if_needed 1001 "freshD" 3600
          (some ⟨1000, 4600, "logidA"⟩)).timestamp)
    ∧ (refresh_if_needed 1001 "freshD" 3600 (some ⟨1000, 4600, "logidA"⟩)).logid
      = "logidA" := by
  refine ⟨rfl, rfl, ?_, rfl⟩
  decide

/-- Claim C2 (counterexample): an `errno = 2` arriving from
`/share/streaming` is handled by the endpoint-blind session-error branch of
`_request`; here (session expired in flight) it does re-bootstrap, so a
session-state side effect occurs. -/
theorem c2_counterexample :
    (requestStep "/share/streaming" 1000 5000 "fresh1" "fresh2" 3600
        ⟨some ⟨1000, 4600, "logid0"⟩, 0⟩ (.body 2)).1.session
      = some ⟨5000, 8600, "fresh2"⟩
    ∧ (⟨5000, 8600, "fresh2"⟩ : SessionData) ≠ ⟨1000, 4600, "logid0"⟩ := by
  refine ⟨rfl, ?_⟩
  decide

/-- Claim C2 (amended): `_request` applies the same `errno ∈ {-6,-9,2}`
branch to every endpoint — for `/share/streaming` exactly as for any
other: it calls `initialize_session` (which re-bootstraps only when the
state is missing or expired) and raises; the pipeline then skips to the
next streaming type on the raised error. -/
theorem c2_errno2_uniform_policy (ep : String) (now1 now2 : Int)
    (f1 f2 : String) (iv : Int) (cs : ClientState)
    (rest : List (Except Int StreamingResp)) :
    requestStep ep now1 now2 f1 f2 iv cs (.body 2)
      = requestStep "/api/shorturlinfo" now1 now2 f1 f2 iv cs (.body 2)
    ∧ (requestStep ep now1 now2 f1 f2 iv cs (.body 2)).1.session
      = some (init_session now2 f2 iv
          (some (refresh_if_needed now1 f1 iv cs.session)))
    ∧ (requestStep ep now1 now2 f1 f2 iv cs (.body 2)).2 = .error (.api 2)
    ∧ fetch_streaming_url (.error 2 :: rest) = fetch_streaming_url rest :=
  ⟨rfl, rfl, rfl, rfl⟩

/-- Claim C3 (counterexample): with an `/api/filemetas` response whose
`info` list is non-empty but whose first entry has no `dlink`, the ladder
raises even though the `videoPlay` rung would have yielded a URL — the
raise is not equivalent to every rung yielding no URL. -/
theorem c3_counterexample :
    get_stream_url {} .exn [.error 2, .error 2, .error 2, .error 2]
        (.error (-9)) (.ok ⟨some [[]]⟩) (.ok [("url", "https://v.example/play")])
      = .error "Could not obtain streaming URL"
    ∧ altVideoPlay (.ok [("url", "https://v.example/play")])
      = some "https://v.example/play" :=
  ⟨rfl, rfl⟩


theorem rung1Yield_ne_empty (f : FileEntry) (head : HeadOutcome) (u : String)
    (h : rung1Yield f head = some u) : u ≠ "" := by
  rcases hd : f.dlink with _ | d <;> simp [rung1Yield, hd] at h
  by_cases hde : d = ""
  · simp [hde] at h
  · simp [hde] at h
    exact truthyOpt_ne_empty _ _ h

theorem ladderSpec_ne_empty (f : FileEntry) (head : HeadOutcome)
    (souts : List (Except Int StreamingResp)) (dl : Except Int DownloadResp)
    (fm : Except Int FmResp) (vp : Except Int Entry) (u : String)
    (h : ladderSpec f head souts dl fm vp = some u) : u ≠ "" := by
  unfold ladderSpec at h
  rcases h1 : rung1Yield f head with _ | u1 <;> simp only [h1, Option.orElse] at h
  · rcases h2 : truthyOpt (fetch_streaming_url souts) with _ | u2 <;>
      simp only [h2, Option.orElse] at h
    · rcases h3 : truthyOpt (fetch_download_url dl) with _ | u3 <;>
        simp only [h3, Option.orElse] at h
      · exact truthyOpt_ne_empty _ _ h
      · cases h
        exact truthyOpt_ne_empty _ _ h3
    · cases h
      exact truthyOpt_ne_empty _ _ h2
  · cases h
    exact rung1Yield_ne_empty f head u h1

/-- Claim C3 (amended): the ladder returns the first non-empty URL of the
rungs in order (pre-baked dlink, streaming, download, then the alt helper
combining filemetas and videoPlay with filemetas' early return), and
raises the fixed message exactly when that chain is empty; a successful
result carries a non-empty `stream_url`. -/
theorem c3_ladder (f : FileEntry) (head : HeadOutcome)
    (souts : List (Except Int StreamingResp)) (dl : Except Int DownloadResp)
    (fm : Except Int FmResp) (vp : Except Int Entry) :
    ((get_stream_url f head souts dl fm vp).map fun vi => vi.stream_url)
      = (match ladderSpec f head souts dl fm vp with
         | some u => Except.ok u
         | none => Except.error "Could not obtain streaming URL")
    ∧ (∀ vi, get_stream_url f head souts dl fm vp = .ok vi →
        vi.stream_url ≠ "") := by
  have hstep : ∀ vi0 : VideoInfo,
      ((match truthyOpt (fetch_streaming_url souts) with
        | some u => Except.ok { vi0 with stream_url := u }
        | none =>
          match truthyOpt (fetch_download_url dl) with
          | some u => Except.ok { vi0 with download_url := u, stream_url := u }
          | none =>
            match truthyOpt (fetch_alt_stream_url fm vp) with
            | some u => Except.ok { vi0 with stream_url := u }
            | none =>
              Except.error "Could not obtain streaming URL" :
              Except String VideoInfo).map fun vi => vi.stream_url)
        = (match ((truthyOpt (fetch_streaming_url souts)).orElse fun _ =>
              (truthyOpt (fetch_download_url dl)).orElse fun _ =>
                truthyOpt (fetch_alt_stream_url fm vp)) with
           | some u => Except.ok u
           | none => Except.error "Could not obtain streaming URL") := by
    intro vi0
    rcases h2 : truthyOpt (fetch_streaming_url souts) with _ | u2 <;>
      rcases h3 : truthyOpt (fetch_download_url dl) with _ | u3 <;>
        rcases h4 : truthyOpt (fetch_alt_stream_url fm vp) with _ | u4 <;>
          simp [Option.orElse, Except.map]
  have hmain : ((get_stream_url f head souts dl fm vp).map fun vi => vi.stream_url)
      = (match ladderSpec f head souts dl fm vp with
         | some u => Except.ok u
         | none => Except.error "Could not obtain streaming URL") := by
    unfold get_stream_url ladderSpec rung1Yield
    rcases hd : f.dlink with _ | d
    · simp only [hd, Option.orElse]
      exact hstep {}
    · by_cases hde : d = ""
      · subst hde
        simp only [hd, ne_eq, not_true_eq_false, if_false, Option.orElse,
          reduceIte]
        exact hstep {}
      · rcases hp : process_dlink d head with _ | u
        · cases head <;> simp [process_dlink, hde] at hp
        · by_cases hu : u = ""
          · subst hu
            simp only [hd, ne_eq, hde, not_false_eq_true, if_true, hp,
              reduceIte, truthyOpt, Option.orElse]
            exact hstep { dlink := d, stream_url := "" }
          · simp [hd, hde, hp, hu, truthyOpt, Option.orElse, Except.map]
  refine ⟨hmain, ?_⟩
  intro vi hok
  rw [hok] at hmain
  rcases hl : ladderSpec f head souts dl fm vp with _ | u <;> rw [hl] at hmain
  · exact absurd hmain (by simp [Except.map])
  · simp [Except.map] at hmain
    rw [hmain]
    exact ladderSpec_ne_empty f head souts dl fm vp u hl

/-- Witness for C3: the amended theorem applied to a file with a pre-baked
dlink whose HEAD probe returns 200. -/
theorem c3_witness :
    ((get_stream_url { dlink := some "https://pre.example/d" }
        (.ok200 "https://cdn.example/final") [] (.error 2) (.error 2)
        (.error 2)).map fun vi => vi.stream_url)
      = .ok "https://cdn.example/final"
    ∧ ("https://cdn.example/final" : String) ≠ "" := by
  refine ⟨?_, ?_⟩
  · have h := (c3_ladder { dlink := some "https://pre.example/d" }
      (.ok200 "https://cdn.example/final") [] (.error 2) (.error 2)
      (.error 2)).1
    rw [h]
    rfl
  · exact (c3_ladder { dlink := some "https://pre.example/d" }
      (.ok200 "https://cdn.example/final") [] (.error 2) (.error 2)
      (.error 2)).2
      ⟨"https://cdn.example/final", "", "https://pre.example/d"⟩ rfl

/-- Claim C4 (counterexample): an entry that is a video only through the
`type` key is selected by the code's third pass, while the claim's
selection (pass 3 on `mime_type` only) falls back to the first entry. -/
theorem c4_counterexample :
    find_video_file
        [⟨some "notes.doc", none, some 0, none, none, none⟩,
         ⟨none, none, none, none, some "video/mp4", none⟩]
      = some ⟨none, none, none, none, some "video/mp4", none⟩
    ∧ find_video_file_claim
        [⟨some "notes.doc", none, some 0, none, none, none⟩,
         ⟨none, none, none, none, some "video/mp4", none⟩]
      = some ⟨some "notes.doc", none, some 0, none, none, none⟩
    ∧ (⟨none, none, none, none, some "video/mp4", none⟩ : FileEntry)
      ≠ ⟨some "notes.doc", none, some 0, none, none, none⟩ := by
  refine ⟨by decide, by decide, by decide⟩

/-- Claim C4 (amended): selection makes three ordered first-match passes —
extension, `category == 1`, then `mime_type` (falling back to the `type`
key when `mime_type` is absent) containing `video` — and otherwise returns
the first entry; the empty list selects nothing. -/
theorem c4_selection (l : List FileEntry) :
    find_video_file l = selectionSpec l ∧ find_video_file [] = none := by
  constructor
  · unfold find_video_file selectionSpec
    rw [findFirstPass_eq_find?, findFirstPass_eq_find?, findFirstPass_eq_find?]
    rcases l.find? passExt with _ | f1 <;>
      rcases l.find? passCategory with _ | f2 <;>
        rcases l.find? passMime with _ | f3 <;>
          simp [Option.orElse]
  · rfl

/-- Claim C5 (counterexample): the wait before the first retry of
`HTTPClient.request` is 1 second — below the claimed 2-second lower
bound (`wait_exponential(multiplier=1, min=1, max=10)`). -/
theorem c5_counterexample :
    httpRequestWait 1 = 1 ∧ ¬ (2 ≤ httpRequestWait 1) := by decide

/-- Claim C5 (amended): both retry decorators stop after 3 attempts and
retry only on raised transport exceptions — never on an HTTP response,
whatever its status, and never on a `TeraboxAPIError`; the waits of the
API client's `_request` lie in `[2, 10]` seconds while those of
`HTTPClient.request` lie in `[1, 10]` seconds. -/
theorem c5_retry :
    (∀ attempt, 1 ≤ attempt →
      2 ≤ apiRequestWait attempt ∧ apiRequestWait attempt ≤ 10)
    ∧ (∀ attempt, 1 ≤ attempt →
      1 ≤ httpRequestWait attempt ∧ httpRequestWait attempt ≤ 10)
    ∧ (∀ f, (runRetry f).1 ≤ 3)
    ∧ (∀ f, 2 ≤ (runRetry f).1 → retryable (f 1) = true)
    ∧ (∀ f, (runRetry f).1 = 3 → retryable (f 1) = true ∧ retryable (f 2) = true)
    ∧ (∀ f status, f 1 = .response status → runRetry f = (1, .response status))
    ∧ (∀ f, f 1 = .excApi → runRetry f = (1, .excApi)) := by
  refine ⟨?_, ?_, ?_, ?_, ?_, ?_, ?_⟩
  · intro attempt _
    unfold apiRequestWait waitExponential
    constructor
    · exact Nat.le_max_left 2 _
    · exact Nat.max_le.mpr ⟨by norm_num, Nat.min_le_right _ 10⟩
  · intro attempt _
    unfold httpRequestWait waitExponential
    constructor
    · exact Nat.le_max_left 1 _
    · exact Nat.max_le.mpr ⟨by norm_num, Nat.min_le_right _ 10⟩
  · intro f
    unfold runRetry
    by_cases h1 : retryable (f 1) <;> by_cases h2 : retryable (f 2) <;>
      simp [h1, h2]
  · intro f h
    unfold runRetry at h
    by_cases h1 : retryable (f 1)
    · exact h1
    · simp [h1] at h
  · intro f h
    unfold runRetry at h
    by_cases h1 : retryable (f 1) <;> by_cases h2 : retryable (f 2) <;>
      simp [h1, h2] at h ⊢
  · intro f status h
    unfold runRetry
    simp [h, retryable]
  · intro f h
    unfold runRetry
    simp [h, retryable]

/-- Witness for C5: the amended theorem applied at attempt 1 and at a
request whose first attempt yields an HTTP 503 response. -/
theorem c5_witness :
    (2 ≤ apiRequestWait 1 ∧ apiRequestWait 1 ≤ 10)
    ∧ runRetry (fun _ => .response 503) = (1, .response 503) :=
  ⟨c5_retry.1 1 (by decide),
   c5_retry.2.2.2.2.2.1 (fun _ => .response 503) 503 rfl⟩

/-- Claim C6: for a non-empty pre-baked dlink, rung 1 issues a HEAD
request for the query-terminated dlink with a 10-second timeout, returns
the final redirected URL on a 200, and on any HTTP error status or raised
exception returns the (query-terminated, unvalidated) dlink; it never
yields nothing. -/
theorem c6_process_dlink (dlink : String) (h : HeadOutcome) (hne : dlink ≠ "") :
    process_dlink_request dlink = ⟨dlinkWithSep dlink, 10⟩
    ∧ (∀ u, h = .ok200 u → process_dlink dlink h = some u)
    ∧ (∀ status, process_dlink dlink (.httpError status)
        = some (dlinkWithSep dlink))
    ∧ process_dlink dlink .exn = some (dlinkWithSep dlink)
    ∧ process_dlink dlink h ≠ none := by
  refine ⟨rfl, ?_, ?_, ?_, ?_⟩
  · intro u hu
    subst hu
    simp [process_dlink, hne]
  · intro status
    simp [process_dlink, hne]
  · simp [process_dlink, hne]
  · cases h <;> simp [process_dlink, hne]

/-- Witness for C6: the theorem applied to a dlink whose HEAD probe gets a
503. -/
theorem c6_witness :
    process_dlink "https://d.example/file" (.httpError 503)
      = some "https://d.example/file?" :=
  (c6_process_dlink "https://d.example/file" (.httpError 503)
    (by decide)).2.2.1 503

/-- Claim C10: host recognition over-accepts — any URL whose lowercased,
`www.`-stripped host contains one of the heuristic substrings, or ends
with a known domain as a suffix, is accepted; in particular
`dropbox.com` and `evil-terabox.com` pass, and `parse_url` produces a
share locator for the latter although it is on no known mirror. -/
theorem c10_host_overacceptance :
    (∀ url : String,
      (terabox_patterns.any fun pat => containsChars (domainOf url) pat.data)
        = true →
      is_terabox_url url = true)
    ∧ (∀ url : String,
      (KNOWN_DOMAINS.any fun known =>
        endsWithChars (domainOf url) (dropWww known.data)) = true →
      is_terabox_url url = true)
    ∧ is_terabox_url "https://dropbox.com/s/abc" = true
    ∧ is_terabox_url "https://evil-terabox.com/s/abc" = true
    ∧ parse_url "https://evil-terabox.com/s/abc"
      = some ("abc", some "https://www.terabox.com/s/abc",
          "https://www.terabox.com")
    ∧ ("evil-terabox.com" ∉ KNOWN_DOMAINS)
    ∧ ("dropbox.com" ∉ KNOWN_DOMAINS) := by
  refine ⟨?_, ?_, by decide, by decide, by decide, by decide, by decide⟩
  · intro url h
    simp only [is_terabox_url]
    rw [h]
    simp
  · intro url h
    simp only [is_terabox_url]
    rcases List.any_eq_true.mp h with ⟨known, hk, he⟩
    have : (KNOWN_DOMAINS.any fun known =>
        dropWww known.data == domainOf url
        || endsWithChars (domainOf url) (dropWww known.data)) = true := by
      refine List.any_eq_true.mpr ⟨known, hk, ?_⟩
      rw [he]
      simp
    rw [this]
    simp

/-- Witness for C10: the over-acceptance theorem applied to
`dropbox.com` (substring heuristic `box`). -/
theorem c10_witness :
    (terabox_patterns.any fun pat =>
      containsChars (domainOf "https://dropbox.com/s/abc") pat.data) = true
    ∧ is_terabox_url "https://dropbox.com/s/abc" = true :=
  ⟨by decide, c10_host_overacceptance.1 "https://dropbox.com/s/abc" (by decide)⟩

theorem hexChar_mem (n : Nat) : hexChar n ∈ hexDigits := by
  unfold hexChar
  by_cases h : n < 16
  · interval_cases n <;> decide
  · rw [List.getD_eq_default]
    · decide
    · rw [show hexDigits.length = 16 from rfl]
      omega

theorem byteHex_subset (b : Nat) (c : Char) (hc : c ∈ byteHex b) :
    c ∈ hexDigits := by
  simp only [byteHex, List.mem_cons, List.not_mem_nil, or_false] at hc
  rcases hc with rfl | rfl <;> exact hexChar_mem _

theorem mem_flatten_byteHex (l : List Nat) (c : Char)
    (h : c ∈ (l.map byteHex).flatten) : c ∈ hexDigits := by
  induction l with
  | nil => simp at h
  | cons b t ih =>
    simp only [List.map_cons, List.flatten_cons, List.mem_append] at h
    rcases h with h | h
    · exact byteHex_subset b c h
    · exact ih h

theorem md5Bytes_length (msg : List Nat) : (md5Bytes msg).length = 16 := by
  unfold md5Bytes
  generalize (chunks64 ((md5Pad msg).length + 1) (md5Pad msg)).foldl md5Block
    (0x67452301, 0xefcdab89, 0x98badcfe, 0x10325476) = st
  obtain ⟨a, b, c, d⟩ := st
  simp [le4]

theorem flatten_byteHex_length (l : List Nat) :
    ((l.map byteHex).flatten).length = 2 * l.length := by
  induction l with
  | nil => simp
  | cons b t ih =>
    simp only [List.map_cons, List.flatten_cons, List.length_append, ih,
      List.length_cons]
    simp [byteHex]
    omega

/-- Claim C8: `generate_sign` is the lowercase hexadecimal MD5 digest of
`share_id + "_" + timestamp` (32 characters over `0-9a-f`), and the
download rung uses the share's own sign whenever it is truthy, otherwise
this synthesized signature at `timestamp = share.timestamp or now()`. -/
theorem c8_generate_sign :
    (∀ (t : Int) (s : String),
      generate_sign t s = md5Hex (s ++ "_" ++ toString t))
    ∧ (∀ s : String, (md5Hex s).data.length = 32
        ∧ ∀ c ∈ (md5Hex s).data, c ∈ hexDigits)
    ∧ (∀ (sign : Option String) (ts : Option Int) (now : Int)
        (shareid : String),
        (∀ v, sign = some v → v ≠ "" →
          downloadSign sign ts now shareid = (v, ts.getD now))
        ∧ (sign = none ∨ sign = some "" →
          downloadSign sign ts now shareid
            = (generate_sign (ts.getD now) shareid, ts.getD now))) := by
  refine ⟨fun _ _ => rfl, ?_, ?_⟩
  · intro s
    constructor
    · show (((md5Bytes (strBytes s)).map byteHex).flatten).length = 32
      rw [flatten_byteHex_length, md5Bytes_length]
    · intro c hc
      exact mem_flatten_byteHex _ c hc
  · intro sign ts now shareid
    constructor
    · intro v hv hne
      subst hv
      simp [downloadSign, hne]
    · rintro (rfl | rfl) <;> simp [downloadSign]

/-- Witness for C8: the theorem applied at `timestamp = 1700000000`,
`shareid = "123"`, with and without a share-provided sign. -/
theorem c8_witness :
    generate_sign 1700000000 "123" = md5Hex "123_1700000000"
    ∧ downloadSign (some "abcd") (some 1700000000) 5 "123"
      = ("abcd", 1700000000)
    ∧ downloadSign none none 1700000000 "123"
      = (generate_sign 1700000000 "123", 1700000000) := by
  refine ⟨?_, ?_, ?_⟩
  · exact (c8_generate_sign.1 1700000000 "123").trans
      (congrArg md5Hex (by decide))
  · exact ((c8_generate_sign.2.2 (some "abcd") (some 1700000000) 5 "123").1
      "abcd" rfl (by decide))
  · exact ((c8_generate_sign.2.2 none none 1700000000 "123").2 (Or.inl rfl))

theorem str_data_append (a b : String) : (a ++ b).data = a.data ++ b.data := by
  cases a
  cases b
  rfl

theorem str_mk_data (s : String) : (⟨s.data⟩ : String) = s := by
  cases s
  rfl

theorem str_ne_empty_of_data (s : String) (h : s.data ≠ []) : s ≠ "" :=
  fun e => h (by rw [e])

theorem takeWhile_all (p : Char → Bool) (l : List Char)
    (h : ∀ c ∈ l, p c = true) : l.takeWhile p = l := by
  induction l with
  | nil => rfl
  | cons c cs ih =>
    have hc := h c (List.mem_cons_self c cs)
    simp [List.takeWhile_cons, hc,
      ih fun x hx => h x (List.mem_cons_of_mem c hx)]

theorem searchFrom_canonical (s : List Char) (hne : s ≠ [])
    (hid : ∀ c ∈ s, isIdChar c = true) :
    searchFrom "/s/".data ("https://www.terabox.com/s/".data ++ s) = some s := by
  have hdata : "https://www.terabox.com/s/".data
      = ['h', 't', 't', 'p', 's', ':', '/', '/', 'w', 'w', 'w', '.',
         't', 'e', 'r', 'a', 'b', 'o', 'x', '.', 'c', 'o', 'm', '/', 's', '/'] := rfl
  rw [hdata]
  simp only [List.cons_append, List.nil_append]
  simp +decide only [searchFrom, matchAt, List.isPrefixOf, List.drop]
  rw [takeWhile_all isIdChar s hid]
  rcases s with _ | ⟨c, cs⟩
  · exact absurd rfl hne
  · simp

theorem extract_surl_canonical (s : String) (hne : s.data ≠ [])
    (hid : ∀ c ∈ s.data, isIdChar c = true) :
    extract_surl (canonicalPrefix ++ s) = some s := by
  have hl : (canonicalPrefix ++ s).data
      = "https://www.terabox.com/s/".data ++ s.data := str_data_append _ _
  simp only [extract_surl]
  rw [hl, searchFrom_canonical s.data hne hid]

/-- Claim C7 (amended): whenever `extract_surl` yields a surl consisting
only of `[A-Za-z0-9_-]` characters (always the case when one of the six
regexes produced it), normalization maps to the canonical prefix plus the
surl and is idempotent; the query-parameter fallback can escape this class
(see the counterexample). -/
theorem c7_normalize_idempotent (u s : String)
    (h : extract_surl u = some s) (hne : s.data ≠ [])
    (hid : ∀ c ∈ s.data, isIdChar c = true) :
    normalize_url u = some (canonicalPrefix ++ s)
    ∧ normalize_url (canonicalPrefix ++ s) = some (canonicalPrefix ++ s)
    ∧ (normalize_url u).bind normalize_url = normalize_url u := by
  have hs : s ≠ "" := str_ne_empty_of_data s hne
  have h1 : normalize_url u = some (canonicalPrefix ++ s) := by
    unfold normalize_url
    rw [h]
    simp [hs]
  have h2 : normalize_url (canonicalPrefix ++ s)
      = some (canonicalPrefix ++ s) := by
    unfold normalize_url
    rw [extract_surl_canonical s hne hid]
    simp [hs]
  refine ⟨h1, h2, ?_⟩
  rw [h1]
  simpa using h2

/-- Claim C7 (counterexample): on `?surl=/abc` the query-parameter
fallback extracts the surl `/abc`; parsing succeeds, yet normalizing the
normalized URL yields nothing, so normalization is not idempotent. -/
theorem c7_counterexample :
    extract_surl "https://terabox.com/x?surl=/abc" = some "/abc"
    ∧ parse_url "https://terabox.com/x?surl=/abc"
      = some ("/abc", some "https://www.terabox.com/s//abc",
          "https://www.terabox.com")
    ∧ normalize_url "https://terabox.com/x?surl=/abc"
      = some "https://www.terabox.com/s//abc"
    ∧ normalize_url "https://www.terabox.com/s//abc" = none := by
  refine ⟨by decide, by decide, by decide, by decide⟩

/-- Witness for C7: the amended theorem applied to the spec's own
end-to-end example URL. -/
theorem c7_witness :
    normalize_url "https://1024tera.com/s/1AbC_dE-fG"
      = some "https://www.terabox.com/s/1AbC_dE-fG"
    ∧ normalize_url "https://www.terabox.com/s/1AbC_dE-fG"
      = some "https://www.terabox.com/s/1AbC_dE-fG" := by
  have h := c7_normalize_idempotent "https://1024tera.com/s/1AbC_dE-fG"
    "1AbC_dE-fG" (by decide) (by decide) (by decide)
  exact ⟨h.1, h.2.1⟩

/-! ### Cookie round-trip machinery (claim C9) -/

/-- The head character exists and is not whitespace. -/
def headNotSp : List Char → Bool
  | [] => false
  | c :: _ => !isPySp c

/-- One well-formed `name=value` item of a cookie-header string, with the
whitespace paddings Python's strips tolerate: `w1 k w2 = w3 v w4`. -/
structure CookieItem where
  w1 : List Char
  k : List Char
  w2 : List Char
  w3 : List Char
  v : List Char
  w4 : List Char

/-- The characters of one item. -/
def mkItemChars (it : CookieItem) : List Char :=
  it.w1 ++ it.k ++ it.w2 ++ '=' :: (it.w3 ++ it.v ++ it.w4)

/-- Well-formedness: paddings are whitespace; the name contains neither
`;` nor `=`; the value contains no `;`; name and value are non-empty and
already stripped (no whitespace at either end). -/
def wfItem (it : CookieItem) : Prop :=
  (∀ c ∈ it.w1, isPySp c = true) ∧ (∀ c ∈ it.w2, isPySp c = true) ∧
  (∀ c ∈ it.w3, isPySp c = true) ∧ (∀ c ∈ it.w4, isPySp c = true) ∧
  it.k ≠ [] ∧ it.v ≠ [] ∧
  (∀ c ∈ it.k, c ≠ ';' ∧ c ≠ '=') ∧ (∀ c ∈ it.v, c ≠ ';') ∧
  headNotSp it.k = true ∧ headNotSp it.k.reverse = true ∧
  headNotSp it.v = true ∧ headNotSp it.v.reverse = true

instance (it : CookieItem) : Decidable (wfItem it) := by
  unfold wfItem
  infer_instance

theorem isPySp_ne_semi {c : Char} (h : isPySp c = true) : c ≠ ';' := by
  intro e
  subst e
  exact absurd h (by decide)

theorem isPySp_ne_eq {c : Char} (h : isPySp c = true) : c ≠ '=' := by
  intro e
  subst e
  exact absurd h (by decide)

theorem no_semi_append {a b : List Char} (ha : ∀ c ∈ a, c ≠ ';')
    (hb : ∀ c ∈ b, c ≠ ';') : ∀ c ∈ a ++ b, c ≠ ';' := fun c hc =>
  (List.mem_append.mp hc).elim (ha c) (hb c)

theorem mkItem_no_semi (it : CookieItem) (h : wfItem it) :
    ∀ c ∈ mkItemChars it, c ≠ ';' := by
  obtain ⟨hw1, hw2, hw3, hw4, _, _, hkc, hvc, _, _, _, _⟩ := h
  have h1 : ∀ c ∈ it.w1, c ≠ ';' := fun c hc => isPySp_ne_semi (hw1 c hc)
  have h2 : ∀ c ∈ it.k, c ≠ ';' := fun c hc => (hkc c hc).1
  have h3 : ∀ c ∈ it.w2, c ≠ ';' := fun c hc => isPySp_ne_semi (hw2 c hc)
  have h4 : ∀ c ∈ it.w3, c ≠ ';' := fun c hc => isPySp_ne_semi (hw3 c hc)
  have h5 : ∀ c ∈ it.w4, c ≠ ';' := fun c hc => isPySp_ne_semi (hw4 c hc)
  have htail : ∀ c ∈ '=' :: (it.w3 ++ it.v ++ it.w4), c ≠ ';' := by
    intro c hc
    rcases List.mem_cons.mp hc with rfl | hc
    · decide
    · exact no_semi_append (no_semi_append h4 hvc) h5 c hc
  exact no_semi_append (no_semi_append (no_semi_append h1 h2) h3) htail

theorem mkItem_ne_nil (it : CookieItem) : mkItemChars it ≠ [] := by
  unfold mkItemChars
  simp

theorem splitOnChar_no_sep (sep : Char) (l : List Char)
    (h : ∀ c ∈ l, c ≠ sep) : splitOnChar sep l = [l] := by
  induction l with
  | nil => rfl
  | cons c cs ih =>
    have hc := h c (List.mem_cons_self c cs)
    simp [splitOnChar, hc, ih fun x hx => h x (List.mem_cons_of_mem c hx)]

theorem splitOnChar_append (sep : Char) (a b : List Char)
    (h : ∀ c ∈ a, c ≠ sep) :
    splitOnChar sep (a ++ sep :: b) = a :: splitOnChar sep b := by
  induction a with
  | nil => simp [splitOnChar]
  | cons c cs ih =>
    have hc := h c (List.mem_cons_self c cs)
    have ht := ih fun x hx => h x (List.mem_cons_of_mem c hx)
    simp only [List.cons_append, splitOnChar, List.append_eq, ht, hc,
      if_false, reduceIte]

theorem splitOnce_append (sep : Char) (a b : List Char)
    (h : ∀ c ∈ a, c ≠ sep) : splitOnce sep (a ++ sep :: b) = (a, some b) := by
  induction a with
  | nil => simp [splitOnce]
  | cons c cs ih =>
    have hc := h c (List.mem_cons_self c cs)
    simp [splitOnce, hc, ih fun x hx => h x (List.mem_cons_of_mem c hx)]

theorem trimL_sp_append (ws l : List Char) (h : ∀ c ∈ ws, isPySp c = true) :
    trimL (ws ++ l) = trimL l := by
  induction ws with
  | nil => rfl
  | cons c cs ih =>
    have hc := h c (List.mem_cons_self c cs)
    simp only [List.cons_append, trimL, List.dropWhile_cons, hc, if_true,
      reduceIte]
    exact ih fun x hx => h x (List.mem_cons_of_mem c hx)

theorem trimL_nosp (l : List Char) (h : headNotSp l = true) : trimL l = l := by
  rcases l with _ | ⟨c, cs⟩
  · rfl
  · have hc : isPySp c = false := by simpa [headNotSp] using h
    simp [trimL, List.dropWhile_cons, hc]

theorem headNotSp_append (a b : List Char) (h : headNotSp a = true) :
    headNotSp (a ++ b) = true := by
  rcases a with _ | ⟨c, cs⟩
  · exact absurd h (by decide)
  · simpa [headNotSp] using h

theorem pyStrip_pad (ws mid ws' : List Char)
    (hws : ∀ c ∈ ws, isPySp c = true) (hws' : ∀ c ∈ ws', isPySp c = true)
    (h1 : headNotSp mid = true) (h2 : headNotSp mid.reverse = true) :
    pyStrip (ws ++ mid ++ ws') = mid := by
  unfold pyStrip
  rw [List.append_assoc, trimL_sp_append ws (mid ++ ws') hws,
    trimL_nosp _ (headNotSp_append mid ws' h1), List.reverse_append,
    trimL_sp_append ws'.reverse mid.reverse
      (fun c hc => hws' c (List.mem_reverse.mp hc)),
    trimL_nosp _ h2, List.reverse_reverse]

theorem dictInsert_append (d : List (String × String)) (k v : String)
    (h : ∀ p ∈ d, p.1 ≠ k) : dictInsert d k v = d ++ [(k, v)] := by
  unfold dictInsert
  have hany : (d.any fun p => p.1 == k) = false := by
    rw [List.any_eq_false]
    intro p hp
    simpa using h p hp
  rw [hany]
  simp

theorem cookieStep_item (d : List (String × String)) (it : CookieItem)
    (hwf : wfItem it) (hd : ∀ p ∈ d, p.1 ≠ (⟨it.k⟩ : String)) :
    cookieStep d (mkItemChars it)
      = d ++ [((⟨it.k⟩ : String), (⟨it.v⟩ : String))] := by
  obtain ⟨hw1, hw2, hw3, hw4, hk, hv, hkc, hvc, hk1, hk2, hv1, hv2⟩ := hwf
  have hmid1 : headNotSp (it.k ++ it.w2 ++ '=' :: (it.w3 ++ it.v)) = true :=
    headNotSp_append (it.k ++ it.w2) ('=' :: (it.w3 ++ it.v))
      (headNotSp_append it.k it.w2 hk1)
  have hmid2 : headNotSp (it.k ++ it.w2 ++ '=' :: (it.w3 ++ it.v)).reverse
      = true := by
    have e : (it.k ++ it.w2 ++ '=' :: (it.w3 ++ it.v)).reverse
        = ((it.v.reverse ++ it.w3.reverse) ++ ['=']) ++
            (it.w2.reverse ++ it.k.reverse) := by
      simp [List.reverse_append, List.reverse_cons, List.append_assoc]
    rw [e]
    exact headNotSp_append _ _ (headNotSp_append _ _
      (headNotSp_append _ _ hv2))
  have hstrip : pyStrip (mkItemChars it)
      = it.k ++ it.w2 ++ '=' :: (it.w3 ++ it.v) := by
    have e : mkItemChars it
        = it.w1 ++ (it.k ++ it.w2 ++ '=' :: (it.w3 ++ it.v)) ++ it.w4 := by
      simp [mkItemChars, List.append_assoc]
    rw [e]
    exact pyStrip_pad _ _ _ hw1 hw4 hmid1 hmid2
  have hsplit : splitOnce '=' (it.k ++ it.w2 ++ '=' :: (it.w3 ++ it.v))
      = (it.k ++ it.w2, some (it.w3 ++ it.v)) :=
    splitOnce_append '=' (it.k ++ it.w2) (it.w3 ++ it.v)
      (fun c hc => (List.mem_append.mp hc).elim
        (fun hm => (hkc c hm).2) (fun hm => isPySp_ne_eq (hw2 c hm)))
  have hks : pyStrip (it.k ++ it.w2) = it.k :=
    pyStrip_pad [] it.k it.w2 (by simp) hw2 hk1 hk2
  have hvs : pyStrip (it.w3 ++ it.v) = it.v := by
    have h0 := pyStrip_pad it.w3 it.v [] hw3 (by simp) hv1 hv2
    rwa [List.append_nil] at h0
  simp only [cookieStep]
  rw [hstrip, hsplit]
  show dictInsert d ⟨pyStrip (it.k ++ it.w2)⟩ ⟨pyStrip (it.w3 ++ it.v)⟩
      = d ++ [((⟨it.k⟩ : String), (⟨it.v⟩ : String))]
  rw [hks, hvs]
  exact dictInsert_append d _ _ hd

theorem cookie_fold (items : List CookieItem) (d : List (String × String))
    (hwf : ∀ it ∈ items, wfItem it)
    (hnd : (items.map fun it => (⟨it.k⟩ : String)).Nodup)
    (hdisj : ∀ it ∈ items, ∀ p ∈ d, p.1 ≠ (⟨it.k⟩ : String)) :
    (splitOnChar ';' (intercalChar ';' (items.map mkItemChars))).foldl
        cookieStep d
      = d ++ items.map fun it => ((⟨it.k⟩ : String), (⟨it.v⟩ : String)) := by
  induction items generalizing d with
  | nil => simp [intercalChar, splitOnChar, cookieStep, pyStrip, trimL,
      splitOnce]
  | cons it rest ih =>
    have hwit := hwf it (List.mem_cons_self it rest)
    have hno := mkItem_no_semi it hwit
    have hdit : ∀ p ∈ d, p.1 ≠ (⟨it.k⟩ : String) :=
      hdisj it (List.mem_cons_self it rest)
    rw [List.map_cons] at hnd
    obtain ⟨hnotin, hnd'⟩ := List.nodup_cons.mp hnd
    rcases rest with _ | ⟨it2, rest'⟩
    · simp only [List.map_cons, List.map_nil, intercalChar]
      rw [splitOnChar_no_sep ';' _ hno]
      simp only [List.foldl]
      rw [cookieStep_item d it hwit hdit]
    · simp only [List.map_cons, intercalChar]
      rw [splitOnChar_append ';' _ _ hno]
      simp only [List.foldl]
      rw [cookieStep_item d it hwit hdit]
      have hrest := ih
        (fun x hx => hwf x (List.mem_cons_of_mem it hx)) hnd'
        (d := d ++ [((⟨it.k⟩ : String), (⟨it.v⟩ : String))])
        (by
          intro x hx p hp
          rcases List.mem_append.mp hp with hp | hp
          · exact hdisj x (List.mem_cons_of_mem it hx) p hp
          · rcases List.mem_singleton.mp hp with rfl
            intro e
            apply hnotin
            have e2 : (⟨it.k⟩ : String) = (⟨x.k⟩ : String) := e
            rw [e2]
            exact List.mem_map_of_mem _ hx)
      simp only [List.map_cons, intercalChar] at hrest
      rw [hrest]
      simp [List.append_assoc]

theorem intercal_cons_ne_nil (x : List Char) (xs : List (List Char))
    (hx : x ≠ []) : intercalChar ';' (x :: xs) ≠ [] := by
  rcases xs with _ | ⟨y, ys⟩
  · simpa [intercalChar] using hx
  · simp [intercalChar]

/-- Claim C9: cookie serialization round-trips — for every well-formed
cookie-header string (whitespace-padded `name=value` items joined by `;`,
unique stripped names, names free of `;`/`=`, values free of `;`),
`parse_cookies` recovers exactly the stripped pairs in order, so
`build_cookie_string (parse_cookies s)` equals `s` up to whitespace and
pair ordering. -/
theorem c9_cookie_roundtrip (items : List CookieItem)
    (hwf : ∀ it ∈ items, wfItem it)
    (hnd : (items.map fun it => (⟨it.k⟩ : String)).Nodup) :
    parse_cookies ⟨intercalChar ';' (items.map mkItemChars)⟩
      = items.map (fun it => ((⟨it.k⟩ : String), (⟨it.v⟩ : String)))
    ∧ build_cookie_string
        (parse_cookies ⟨intercalChar ';' (items.map mkItemChars)⟩)
      = build_cookie_string
          (items.map fun it => ((⟨it.k⟩ : String), (⟨it.v⟩ : String))) := by
  have hp : parse_cookies ⟨intercalChar ';' (items.map mkItemChars)⟩
      = items.map (fun it => ((⟨it.k⟩ : String), (⟨it.v⟩ : String))) := by
    rcases items with _ | ⟨it0, rest⟩
    · simp [parse_cookies, intercalChar]
    · have hne : (⟨intercalChar ';'
          ((it0 :: rest).map mkItemChars)⟩ : String).data ≠ [] := by
        show intercalChar ';' ((it0 :: rest).map mkItemChars) ≠ []
        rw [List.map_cons]
        exact intercal_cons_ne_nil _ _ (mkItem_ne_nil it0)
      unfold parse_cookies
      rw [if_neg hne]
      have h0 := cookie_fold (it0 :: rest) [] hwf hnd
        (by intro x hx p hp; exact absurd hp (List.not_mem_nil p))
      simpa using h0
  exact ⟨hp, by rw [hp]⟩

/-- Witness for C9: the round-trip theorem applied to the two-cookie
header string with assorted padding. -/
theorem c9_witness :
    parse_cookies " lang=en ;ndus = abc"
      = [("lang", "en"), ("ndus", "abc")]
    ∧ build_cookie_string (parse_cookies " lang=en ;ndus = abc")
      = "lang=en; ndus=abc" := by
  have h := c9_cookie_roundtrip
    [⟨[' '], ['l', 'a', 'n', 'g'], [], [], ['e', 'n'], [' ']⟩,
     ⟨[], ['n', 'd', 'u', 's'], [' '], [' '], ['a', 'b', 'c'], []⟩]
    (by decide) (by decide)
  have e : (⟨intercalChar ';'
      ([⟨[' '], ['l', 'a', 'n', 'g'], [], [], ['e', 'n'], [' ']⟩,
        ⟨[], ['n', 'd', 'u', 's'], [' '], [' '], ['a', 'b', 'c'],
          []⟩].map mkItemChars)⟩ : String) = " lang=en ;ndus = abc" := by decide
  constructor
  · rw [← e]
    exact h.1.trans (by decide)
  · rw [← e]
    exact h.2.trans (by decide)
